import Mathlib

set_option maxRecDepth 20000

/-!
Verification of the data-aggregation pipeline of the Portsmouth housing
dashboard (src/app.py).  The script loads a CSV export of a spreadsheet
into a pandas DataFrame, zero-fills missing cells, derives per-project
unit columns and an affordability ratio, parses a move-in year, groups by
year, materializes the year range up to the fixed target year 2030 and
computes cumulative sums.  The repository duplicates the aggregation
twice (lines 37-62 and 165-202); this development follows the second,
complete block, whose year-range / min / merge logic is identical to the
first.

The embedding models a spreadsheet cell the way pandas `read_csv`
materializes it: a number, a free-text string, or a missing value (NaN).
Operations that pandas performs columnwise (elementwise `+`, `/`,
`fillna`, `round`, `pd.to_numeric(errors := coerce)`) are modelled
per cell, and failures (Python `TypeError` from adding a string to a
number, the `ValueError` raised by `int()` of the NaN minimum of an
empty series) are modelled with `Except`.
-/

deriving instance DecidableEq for Except

/-- A cell of the loaded DataFrame: a number, a free-text string, or a
missing value (NaN), exactly the three shapes `pd.read_csv` produces for
a hand-curated spreadsheet column. -/
inductive Cell where
  | num (q : ℚ)
  | str (s : String)
  | na
deriving DecidableEq

/-- A float-valued result of the ratio computation: pandas float
division can produce plus or minus infinity (x/0) and NaN (0/0) without
raising. -/
inductive PyVal where
  | fin (q : ℚ)
  | inf
  | ninf
  | nan
deriving DecidableEq

/-- Pandas `fillna(0)` on a single cell (app.py line 28): only missing
values become 0; strings are left untouched. -/
def fillCell : Cell → Cell
  | .na => .num 0
  | c => c

/-- The message of the Python TypeError raised by an unsupported
mixed-type operation. -/
def typeErrorMsg : String := "TypeError: unsupported operand types"

/-- Python `+` on two cells, as pandas applies it elementwise to object
columns: numbers add, strings concatenate, a mixed string/number pair
raises a TypeError. -/
def pyAdd : Cell → Cell → Except String Cell
  | .num a, .num b => .ok (.num (a + b))
  | .str a, .str b => .ok (.str (a ++ b))
  | .na, .num _ => .ok .na
  | .num _, .na => .ok .na
  | .na, .na => .ok .na
  | _, _ => .error typeErrorMsg

/-- Python / numpy `/` on two cells: float division by zero yields
infinity (or NaN for 0/0) rather than an error; dividing with a string
raises a TypeError. -/
def pyDivCell : Cell → Cell → Except String PyVal
  | .num a, .num b =>
      if b = 0 then
        if 0 < a then .ok .inf
        else if a < 0 then .ok .ninf
        else .ok .nan
      else .ok (.fin (a / b))
  | .na, .num _ => .ok .nan
  | .num _, .na => .ok .nan
  | .na, .na => .ok .nan
  | _, _ => .error typeErrorMsg

/-- Multiplication by the positive constant 100 on a float value. -/
def pyMul100 : PyVal → PyVal
  | .fin q => .fin (q * 100)
  | v => v

/-- Pandas `fillna(0)` on a float value (app.py line 171): NaN becomes
0, but infinities are NOT missing values and pass through. -/
def fillnaVal : PyVal → PyVal
  | .nan => .fin 0
  | v => v

/-- Banker rounding (round half to even) of a rational to an integer,
matching numpy `round`. -/
def roundHalfEven (q : ℚ) : ℤ :=
  if q - (Rat.floor q : ℚ) < 1 / 2 then Rat.floor q
  else if 1 / 2 < q - (Rat.floor q : ℚ) then Rat.floor q + 1
  else if Rat.floor q % 2 = 0 then Rat.floor q else Rat.floor q + 1

/-- Rounding `round(x, 1)`: round half to even at one decimal place. -/
def roundTo1 (q : ℚ) : ℚ := (roundHalfEven (q * 10) : ℚ) / 10

/-- Pandas `.round(1)` on a float value: infinities and NaN round to
themselves. -/
def pyRound1 : PyVal → PyVal
  | .fin q => .fin (roundTo1 q)
  | v => v

/-! ### Numeric parsing, `pd.to_numeric(errors = coerce)` -/

/-- Split a character list at the dots, for decimal-literal parsing. -/
def splitDots : List Char → List (List Char)
  | [] => [[]]
  | c :: cs =>
      let r := splitDots cs
      if c = '.' then [] :: r
      else
        match r with
        | [] => [[c]]
        | p :: ps => (c :: p) :: ps

def isSpaceChar (c : Char) : Bool := c = ' ' ∨ c = '\t' ∨ c = '\n' ∨ c = '\r'

/-- Strip leading and trailing whitespace. -/
def trimChars (cs : List Char) : List Char :=
  ((cs.dropWhile isSpaceChar).reverse.dropWhile isSpaceChar).reverse

/-- Numeric value of a digit list (most significant first). -/
def digitsVal (cs : List Char) : ℕ := cs.foldl (fun a c => a * 10 + (c.toNat - 48)) 0

def allDigits (cs : List Char) : Bool := cs.all Char.isDigit

/-- Ten to a natural power, as a rational. -/
def powTen : ℕ → ℚ
  | 0 => 1
  | n + 1 => 10 * powTen n

/-- Parse an unsigned decimal literal (`2024`, `2024.5`, `.5`, `2024.`). -/
def parseUnsignedChars (cs : List Char) : Option ℚ :=
  match splitDots cs with
  | [w] => if w ≠ [] ∧ allDigits w then some ((digitsVal w : ℚ)) else none
  | [w, f] =>
      if (w ≠ [] ∨ f ≠ []) ∧ allDigits w ∧ allDigits f then
        some ((digitsVal w : ℚ) + (digitsVal f : ℚ) / powTen f.length)
      else none
  | _ => none

/-- Parse a signed decimal literal after trimming whitespace. -/
def parseNumChars (cs : List Char) : Option ℚ :=
  match trimChars cs with
  | [] => none
  | c :: rest =>
      if c = '-' then (parseUnsignedChars rest).map Neg.neg
      else if c = '+' then parseUnsignedChars rest
      else parseUnsignedChars (c :: rest)

/-- Coercing `pd.to_numeric(x, errors = coerce)` on a cell: numbers pass through,
missing values stay missing (`none`), strings parse as decimal literals
or coerce to NaN (`none`). -/
def toNumericCoerce : Cell → Option ℚ
  | .num q => some q
  | .na => none
  | .str s => parseNumChars s.data

/-! ### The project record and its enrichment (app.py lines 165-176) -/

/-- One row of the source table, restricted to the columns the
aggregation pipeline reads: Occupancy, the four split unit counts,
Total units, Latitude and Longitude. -/
structure Record where
  occupancy : Cell
  marketRateRentals : Cell
  affordableRentals : Cell
  marketRateOwner : Cell
  affordableOwner : Cell
  totalUnits : Cell
  latitude : Cell
  longitude : Cell
deriving DecidableEq

/-- Load-time `df.fillna(0)` (app.py line 28) applied to one row. -/
def fillRecord (r : Record) : Record :=
  ⟨fillCell r.occupancy, fillCell r.marketRateRentals, fillCell r.affordableRentals,
   fillCell r.marketRateOwner, fillCell r.affordableOwner, fillCell r.totalUnits,
   fillCell r.latitude, fillCell r.longitude⟩

/-- A record together with the derived columns computed by app.py lines
165-171 and the parsed move-in year of line 176. -/
structure Enriched where
  base : Record
  rentalUnits : Cell
  ownerUnits : Cell
  affordableUnits : Cell
  marketRateUnits : Cell
  affordabilityRatio : PyVal
  moveInYear : Option ℚ
deriving DecidableEq

/-- Compute the derived columns of one (already zero-filled) row:
Rental Units, Owner Units, Affordable Units, Market Rate Units
(lines 165-170), the Affordability Ratio
`(Affordable Units / Total units * 100).fillna(0).round(1)` (line 171)
and the parsed Move-in Year (line 176). -/
def enrich (r : Record) : Except String Enriched :=
  match pyAdd r.marketRateRentals r.affordableRentals with
  | .error m => .error m
  | .ok rental =>
  match pyAdd r.marketRateOwner r.affordableOwner with
  | .error m => .error m
  | .ok owner =>
  match pyAdd r.affordableRentals r.affordableOwner with
  | .error m => .error m
  | .ok afford =>
  match pyAdd r.marketRateRentals r.marketRateOwner with
  | .error m => .error m
  | .ok market =>
  match pyDivCell afford r.totalUnits with
  | .error m => .error m
  | .ok ratio0 =>
      .ok ⟨r, rental, owner, afford, market,
        pyRound1 (fillnaVal (pyMul100 ratio0)), toNumericCoerce r.occupancy⟩

/-! ### The yearly aggregation (app.py lines 179-202) -/

/-- The planning goal and year constants of app.py lines 32-34. -/
def RENTAL_GOAL : ℤ := 2897

def GOAL_START_YEAR : ℤ := 2024

def TARGET_YEAR : ℤ := 2030

/-- Python `int()` on a float: truncation toward zero. -/
def intTrunc (q : ℚ) : ℤ := if 0 ≤ q then Rat.floor q else Rat.ceil q

/-- Python `range(lo, n)` materialized with `hi = n - 1`: counts down,
empty when `hi + 1 ≤ lo`. -/
def yearRangeAux (lo : ℤ) : ℕ → List ℤ
  | 0 => []
  | n + 1 => lo :: yearRangeAux (lo + 1) n

/-- The materialized year list `list(range(lo, hi + 1))` of app.py
line 191. -/
def yearRange (lo hi : ℤ) : List ℤ := yearRangeAux lo (hi + 1 - lo).toNat

/-- Minimum of a list of parsed years, `Series.min()`: `none` on an
empty series (pandas yields NaN there). -/
def minList : List ℚ → Option ℚ
  | [] => none
  | q :: qs =>
      match minList qs with
      | none => some q
      | some m => some (min q m)

/-- The parsed move-in years of a list of (already filtered) records:
the column `yearly_data` is grouped on. -/
def parsedYears (v : List Enriched) : List ℚ := v.filterMap fun x => x.moveInYear

/-- The per-year group sums of the five aggregated columns
(app.py lines 182-188). -/
structure Sums where
  rental : Cell
  owner : Cell
  total : Cell
  affordable : Cell
  marketRate : Cell
deriving DecidableEq

def sumsZero : Sums := ⟨.num 0, .num 0, .num 0, .num 0, .num 0⟩

/-- The rows whose parsed move-in year equals the given (integer) year:
the group the left-merge of line 195 matches against that year. -/
def groupAt (v : List Enriched) (y : ℤ) : List Enriched :=
  v.filter fun x => decide (x.moveInYear = some ((y : ℤ) : ℚ))

/-- pandas `Series.sum()` as the groupby aggregator: an empty column
sums to 0, otherwise the values are combined pairwise with Python `+`
(so a column of strings concatenates). -/
def pySumAux (acc : Cell) : List Cell → Except String Cell
  | [] => .ok acc
  | c :: cs =>
      match pyAdd acc c with
      | .error m => .error m
      | .ok a => pySumAux a cs

def pySum : List Cell → Except String Cell
  | [] => .ok (.num 0)
  | c :: cs => pySumAux c cs

/-- The merged row of sums for one year of the materialized range:
group sums if any project has that move-in year, else the `fillna(0)`
fill of the left-merge miss (app.py line 195). -/
def sumsFor (v : List Enriched) (y : ℤ) : Except String Sums :=
  if groupAt v y = [] then .ok sumsZero
  else
    match pySum ((groupAt v y).map fun x => x.rentalUnits) with
    | .error m => .error m
    | .ok r =>
    match pySum ((groupAt v y).map fun x => x.ownerUnits) with
    | .error m => .error m
    | .ok o =>
    match pySum ((groupAt v y).map fun x => x.base.totalUnits) with
    | .error m => .error m
    | .ok t =>
    match pySum ((groupAt v y).map fun x => x.affordableUnits) with
    | .error m => .error m
    | .ok a =>
    match pySum ((groupAt v y).map fun x => x.marketRateUnits) with
    | .error m => .error m
    | .ok m => .ok ⟨r, o, t, a, m⟩

/-- The year column plus merged sums for every year of the range. -/
def mergedOf (v : List Enriched) : List ℤ → Except String (List (ℤ × Sums))
  | [] => .ok []
  | y :: ys =>
      match sumsFor v y with
      | .error m => .error m
      | .ok s =>
          match mergedOf v ys with
          | .error m => .error m
          | .ok rest => .ok ((y, s) :: rest)

/-- One row of the final yearly table: the year, the five per-year
sums, and the five cumulative sums (app.py lines 198-202). -/
structure YearRow where
  year : ℤ
  rentalUnits : Cell
  ownerUnits : Cell
  totalUnits : Cell
  affordableUnits : Cell
  marketRateUnits : Cell
  cumRental : Cell
  cumOwner : Cell
  cumTotal : Cell
  cumAffordable : Cell
  cumMarketRate : Cell
deriving DecidableEq

def mkRow (y : ℤ) (s c : Sums) : YearRow :=
  ⟨y, s.rental, s.owner, s.total, s.affordable, s.marketRate,
   c.rental, c.owner, c.total, c.affordable, c.marketRate⟩

/-- Elementwise Python `+` of two rows of sums, for the running
cumulative totals. -/
def addSums (c s : Sums) : Except String Sums :=
  match pyAdd c.rental s.rental with
  | .error m => .error m
  | .ok r =>
  match pyAdd c.owner s.owner with
  | .error m => .error m
  | .ok o =>
  match pyAdd c.total s.total with
  | .error m => .error m
  | .ok t =>
  match pyAdd c.affordable s.affordable with
  | .error m => .error m
  | .ok a =>
  match pyAdd c.marketRate s.marketRate with
  | .error m => .error m
  | .ok m => .ok ⟨r, o, t, a, m⟩

/-- pandas `cumsum` down the merged rows: the first row's cumulative
values are its own sums, later rows add onto the running totals. -/
def cumRows : Option Sums → List (ℤ × Sums) → Except String (List YearRow)
  | _, [] => .ok []
  | none, (y, s) :: rest =>
      match cumRows (some s) rest with
      | .error m => .error m
      | .ok t => .ok (mkRow y s s :: t)
  | some c, (y, s) :: rest =>
      match addSums c s with
      | .error m => .error m
      | .ok c2 =>
          match cumRows (some c2) rest with
          | .error m => .error m
          | .ok t => .ok (mkRow y s c2 :: t)

/-- The error raised by `int(...)` of the NaN minimum of an empty
series (app.py line 191 when no year parsed). -/
def valueErrorMsg : String := "ValueError: cannot convert float NaN to integer"

/-- Lines 191-202: take the minimum parsed year (raising a ValueError
through `int()` if no year parsed), materialize the range up to
`TARGET_YEAR`, left-merge the group sums with zero fill, and compute
the cumulative columns. -/
def yearlyFromValid (v : List Enriched) : Except String (List YearRow) :=
  match minList (parsedYears v) with
  | none => .error valueErrorMsg
  | some kmin =>
      match mergedOf v (yearRange (intTrunc kmin) TARGET_YEAR) with
      | .error m => .error m
      | .ok ms => cumRows none ms

/-- Monadic map over a list in `Except`, failing at the first failing
element (how a columnwise pandas operation fails for a whole frame). -/
def mapE (f : α → Except String β) : List α → Except String (List β)
  | [] => .ok []
  | a :: as =>
      match f a with
      | .error m => .error m
      | .ok b =>
          match mapE f as with
          | .error m => .error m
          | .ok bs => .ok (b :: bs)

/-- The aggregation pipeline: zero-fill the loaded frame (line 28),
derive the per-project columns (lines 165-176), filter the rows with a
parsed move-in year (line 179), and build the yearly cumulative table
(lines 182-202).  Returns the enriched project list and the yearly
table, or the first Python exception the script would raise. -/
def aggregate (rows : List Record) : Except String (List Enriched × List YearRow) :=
  match mapE enrich (rows.map fillRecord) with
  | .error m => .error m
  | .ok e =>
      match yearlyFromValid (e.filter fun x => x.moveInYear.isSome) with
      | .error m => .error m
      | .ok t => .ok (e, t)

/-! ### The map markers (app.py lines 244-247) -/

def isnaCell : Cell → Bool
  | .na => true
  | _ => false

/-- The marker coordinates the map loop produces: one marker per row
except those whose Latitude or Longitude cell is (still) missing
(app.py lines 244-247). -/
def markers (e : List Enriched) : List (Cell × Cell) :=
  (e.filter fun x => !(isnaCell x.base.latitude) && !(isnaCell x.base.longitude)).map
    fun x => (x.base.latitude, x.base.longitude)

/-! ### Predicates used in the specification statements -/

/-- The five per-year sums of a yearly-table row. -/
def rowSums (row : YearRow) : Sums :=
  ⟨row.rentalUnits, row.ownerUnits, row.totalUnits, row.affordableUnits, row.marketRateUnits⟩

/-- The five cumulative sums of a yearly-table row. -/
def rowCums (row : YearRow) : Sums :=
  ⟨row.cumRental, row.cumOwner, row.cumTotal, row.cumAffordable, row.cumMarketRate⟩

/-- Two cells hold numbers in nondecreasing order. -/
def cellLe (a b : Cell) : Prop := ∃ p q, a = Cell.num p ∧ b = Cell.num q ∧ p ≤ q

def sumsLe (s1 s2 : Sums) : Prop :=
  cellLe s1.rental s2.rental ∧ cellLe s1.owner s2.owner ∧ cellLe s1.total s2.total ∧
  cellLe s1.affordable s2.affordable ∧ cellLe s1.marketRate s2.marketRate

/-- Each of the five cumulative columns is nondecreasing from one
yearly row to the next. -/
def cumLe (r1 r2 : YearRow) : Prop := sumsLe (rowCums r1) (rowCums r2)

/-- The cell holds a nonnegative number. -/
def cellNN (c : Cell) : Prop := ∃ q, c = Cell.num q ∧ 0 ≤ q

def sumsNN (s : Sums) : Prop :=
  cellNN s.rental ∧ cellNN s.owner ∧ cellNN s.total ∧
  cellNN s.affordable ∧ cellNN s.marketRate

/-- All five unit-count cells of an input record hold nonnegative
numbers (the spec's data-model invariant on unit counts). -/
def recordNonneg (r : Record) : Prop :=
  cellNN r.marketRateRentals ∧ cellNN r.affordableRentals ∧ cellNN r.marketRateOwner ∧
  cellNN r.affordableOwner ∧ cellNN r.totalUnits

/-- The derived unit cells and the stored total of an enriched record
hold nonnegative numbers. -/
def enrichedNN (x : Enriched) : Prop :=
  cellNN x.rentalUnits ∧ cellNN x.ownerUnits ∧ cellNN x.base.totalUnits ∧
  cellNN x.affordableUnits ∧ cellNN x.marketRateUnits

/-- The cell is a number or a missing value (not a malformed string). -/
def cellNumOrNa : Cell → Bool
  | .str _ => false
  | _ => true

/-- The numeric value of a cell with missing read as 0. -/
def val0 : Cell → ℚ
  | .num q => q
  | _ => 0

/-! ### Concrete instances used as counterexamples and witnesses -/

/-- A record whose occupancy is the free text TBD (spec scenario). -/
def recTBD : Record := ⟨.str "TBD", .num 0, .num 0, .num 0, .num 0, .num 0, .num 0, .num 0⟩

/-- The enrichment of `recTBD`. -/
def enrTBD : Enriched :=
  ⟨⟨.str "TBD", .num 0, .num 0, .num 0, .num 0, .num 0, .num 0, .num 0⟩,
   .num 0, .num 0, .num 0, .num 0, .fin 0, none⟩

/-- A record with a malformed string in the Market Rate Rentals
column next to numeric cells. -/
def recBadUnit : Record := ⟨.num 2024, .str "abc", .num 5, .num 0, .num 0, .num 0, .num 0, .num 0⟩

/-- A record with 5 affordable rentals and 0 total units. -/
def recC3 : Record := ⟨.num 2024, .num 0, .num 5, .num 0, .num 0, .num 0, .num 0, .num 0⟩

/-- A record with 2 affordable rentals, 3 affordable owner units and
0 total units. -/
def recC3W : Record := ⟨.num 2024, .num 0, .num 2, .num 0, .num 3, .num 0, .num 0, .num 0⟩

/-- A record with missing cells in two unit-count columns. -/
def recW2 : Record := ⟨.num 2024, .na, .num 5, .na, .num 7, .num 12, .num 0, .num 0⟩

/-- A record whose occupancy parses to the non-integer year 2029.5. -/
def rec45 : Record := ⟨.str "2029.5", .num 0, .num 0, .num 0, .num 0, .num 0, .num 0, .num 0⟩

/-- A record whose move-in year 2035 lies past the target year. -/
def rec2035 : Record := ⟨.num 2035, .num 1, .num 0, .num 0, .num 0, .num 1, .num 0, .num 0⟩

/-- The enrichment of `rec2035`. -/
def enr2035 : Enriched :=
  ⟨⟨.num 2035, .num 1, .num 0, .num 0, .num 0, .num 1, .num 0, .num 0⟩,
   .num 1, .num 0, .num 0, .num 1, .fin 0, some 2035⟩

/-- A record whose Occupancy cell is absent. -/
def recNoOcc : Record := ⟨.na, .num 1, .num 2, .num 0, .num 0, .num 3, .num 0, .num 0⟩

/-- A record with an absent Latitude cell and a real Longitude. -/
def recNoLoc : Record :=
  ⟨.num 2024, .num 0, .num 0, .num 0, .num 0, .num 0, .na, .num (mkRat (-7079) 100)⟩

/-- A record whose affordable units (50) exceed its total units (10). -/
def recOver : Record := ⟨.num 2024, .num 0, .num 50, .num 0, .num 0, .num 10, .num 0, .num 0⟩

/-- The spec scenario record: 10 market-rate rentals, 5 affordable
rentals, 15 total units. -/
def recW8 : Record := ⟨.num 2024, .num 10, .num 5, .num 0, .num 0, .num 15, .num 0, .num 0⟩

/-- A fully numeric record with move-in year 2030. -/
def rec9 : Record := ⟨.num 2030, .num 1, .num 2, .num 3, .num 4, .num 10, .num 0, .num 0⟩

def rows9 : List Record := [rec9]

/-- The enrichment of `rec9`. -/
def enr9 : Enriched :=
  ⟨⟨.num 2030, .num 1, .num 2, .num 3, .num 4, .num 10, .num 0, .num 0⟩,
   .num 3, .num 7, .num 6, .num 4, .fin 60, some 2030⟩

def e9 : List Enriched := [enr9]

/-- The one-row yearly table `aggregate rows9` produces. -/
def y9 : List YearRow :=
  [⟨2030, .num 3, .num 7, .num 10, .num 6, .num 4, .num 3, .num 7, .num 10, .num 6, .num 4⟩]

theorem enrich_ok_fields {r : Record} {x : Enriched} (h : enrich r = Except.ok x) :
    x.base = r ∧ x.moveInYear = toNumericCoerce r.occupancy ∧
    pyAdd r.marketRateRentals r.affordableRentals = .ok x.rentalUnits ∧
    pyAdd r.marketRateOwner r.affordableOwner = .ok x.ownerUnits ∧
    pyAdd r.affordableRentals r.affordableOwner = .ok x.affordableUnits ∧
    pyAdd r.marketRateRentals r.marketRateOwner = .ok x.marketRateUnits := by
  unfold enrich at h
  repeat' split at h
  all_goals first
    | exact Except.noConfusion h
    | (cases h; exact ⟨rfl, rfl, by assumption, by assumption, by assumption, by assumption⟩)

theorem pyAdd_num (a b : ℚ) : pyAdd (.num a) (.num b) = .ok (.num (a + b)) := rfl

theorem mapE_mem_ok {f : α → Except String β} :
    ∀ {l : List α} {bs : List β}, mapE f l = .ok bs → ∀ b ∈ bs, ∃ a ∈ l, f a = .ok b := by
  intro l
  induction l with
  | nil =>
      intro bs h b hb
      unfold mapE at h
      cases h
      cases hb
  | cons a as ih =>
      intro bs h b hb
      unfold mapE at h
      split at h
      · exact Except.noConfusion h
      next b0 h1 =>
        split at h
        · exact Except.noConfusion h
        next bs0 h2 =>
          cases h
          rcases List.mem_cons.mp hb with hb | hb
          · exact ⟨a, List.mem_cons_self a as, hb ▸ h1⟩
          · rcases ih h2 b hb with ⟨a2, ha2, hfa2⟩
            exact ⟨a2, List.mem_cons_of_mem a ha2, hfa2⟩

theorem mapE_append {f : α → Except String β} {l2 : List α} {b2 : List β}
    (h2 : mapE f l2 = .ok b2) :
    ∀ l1 : List α, mapE f (l1 ++ l2) = (mapE f l1).map (fun b1 => b1 ++ b2) := by
  intro l1
  induction l1 with
  | nil => simp [mapE, h2, Except.map]
  | cons a as ih =>
      show mapE f (a :: (as ++ l2)) = _
      unfold mapE
      cases h1 : f a with
      | error m => simp [Except.map]
      | ok b0 =>
          rw [ih]
          cases h3 : mapE f as with
          | error m => simp [Except.map]
          | ok bs0 => simp [Except.map]

/-- Claim C10: running the aggregation twice on the same input list,
with no mutation of the source in between, yields identical enriched
records and an identical yearly table. -/
theorem claim_C10_determinism (rows : List Record)
    (o1 o2 : Except String (List Enriched × List YearRow))
    (h1 : aggregate rows = o1) (h2 : aggregate rows = o2) : o1 = o2 := h1 ▸ h2

/-- Witness for C10 at the concrete input `rows9`. -/
theorem claim_C10_witness :
    (Except.ok (e9, y9) : Except String (List Enriched × List YearRow)) = Except.ok (e9, y9) :=
  claim_C10_determinism rows9 _ _ (by with_unfolding_all rfl) (by with_unfolding_all rfl)

/-- Counterexample to C1: on the one-record table whose occupancy is
the unparseable text TBD the aggregation raises a ValueError (from
`int()` of the NaN minimum) instead of returning an empty yearly
table. -/
theorem claim_C1_counterexample :
    toNumericCoerce recTBD.occupancy = none ∧
    aggregate [recTBD] = .error valueErrorMsg :=
  ⟨by with_unfolding_all rfl, by with_unfolding_all rfl⟩

/-- Counterexample to C2: a malformed string in the Market Rate
Rentals column is not coerced to 0; the derived-column addition raises
a TypeError and the pipeline produces no output. -/
theorem claim_C2_counterexample :
    recBadUnit.marketRateRentals = Cell.str "abc" ∧
    toNumericCoerce (Cell.str "abc") = none ∧
    aggregate [recBadUnit] = .error typeErrorMsg :=
  ⟨rfl, by with_unfolding_all rfl, by with_unfolding_all rfl⟩

/-- Counterexample to C3: with 5 affordable units and 0 total units
the computed affordability ratio is positive infinity (pandas float
5/0), not 0: the `fillna(0)` of line 171 only catches the NaN of 0/0. -/
theorem claim_C3_counterexample :
    recC3.totalUnits = Cell.num 0 ∧ recC3.affordableRentals = Cell.num 5 ∧
    (enrich (fillRecord recC3)).map (fun x => x.affordabilityRatio) = .ok PyVal.inf ∧
    PyVal.inf ≠ PyVal.fin 0 :=
  ⟨rfl, rfl, by with_unfolding_all rfl, fun h => PyVal.noConfusion h⟩

/-- Counterexample to C5: with one record whose move-in year 2035
exceeds the target year 2030, `range(int(min), 2031)` is empty and the
yearly table has no rows, not a single collapsed row. -/
theorem claim_C5_counterexample :
    toNumericCoerce rec2035.occupancy = some 2035 ∧
    aggregate [rec2035] = .ok ([enr2035], []) :=
  ⟨by with_unfolding_all rfl, by with_unfolding_all rfl⟩

/-- Counterexample to C6: a record with an absent Occupancy cell does
not parse as a number in the raw table, yet after the load-time
`fillna(0)` it parses to year 0 and is kept by the valid-year filter,
so it is not excluded from the year grouping. -/
theorem claim_C6_counterexample :
    recNoOcc.occupancy = Cell.na ∧ toNumericCoerce Cell.na = none ∧
    (mapE enrich ([recNoOcc].map fillRecord)).map
      (fun e => parsedYears (e.filter fun x => x.moveInYear.isSome)) = .ok [0] :=
  ⟨rfl, rfl, by with_unfolding_all rfl⟩

/-- Evidence for C7: the record with an absent Latitude cell still
produces a map marker, at latitude 0, because the load-time `fillna(0)`
turns the missing coordinate into 0 and the `isna` skip of line 246
never fires. -/
theorem claim_C7_marker_bug :
    isnaCell recNoLoc.latitude = true ∧
    (mapE enrich ([recNoLoc].map fillRecord)).map markers
      = .ok [(Cell.num 0, Cell.num (mkRat (-7079) 100))] :=
  ⟨rfl, by with_unfolding_all rfl⟩

/-- Counterexample to C8: a record with 50 affordable units and 10
total units has affordability ratio 500, outside [0, 100]. -/
theorem claim_C8_counterexample :
    recOver.totalUnits = Cell.num 10 ∧ (0 : ℚ) < 10 ∧
    (enrich (fillRecord recOver)).map (fun x => x.affordabilityRatio) = .ok (PyVal.fin 500) ∧
    ¬ ((500 : ℚ) ≤ 100) :=
  ⟨rfl, by norm_num, by with_unfolding_all rfl, by norm_num⟩

/-- Counterexample to C4: with one record whose occupancy parses to
2029.5, the minimum parsed year is 2029.5 but the yearly table starts
at the truncated year 2029, a row below the minimum parsed year. -/
theorem claim_C4_counterexample :
    toNumericCoerce rec45.occupancy = some (mkRat 4059 2) ∧
    (aggregate [rec45]).map (fun p => p.2.map fun row => row.year) = .ok [2029, 2030] ∧
    ¬ ((mkRat 4059 2 : ℚ) ≤ 2029) :=
  ⟨by with_unfolding_all rfl, by with_unfolding_all rfl, by
    intro h
    rw [show (mkRat 4059 2 : ℚ) = 4059 / 2 by with_unfolding_all rfl] at h
    norm_num at h⟩

theorem roundTo1_zero : roundTo1 0 = 0 := by with_unfolding_all rfl

theorem fillCell_num (q : ℚ) : fillCell (Cell.num q) = Cell.num q := rfl

theorem pyDiv_num_ok (a b : ℚ) : ∃ v, pyDivCell (Cell.num a) (Cell.num b) = Except.ok v := by
  show ∃ v, (if b = 0 then
      if 0 < a then Except.ok PyVal.inf
      else if a < 0 then Except.ok PyVal.ninf else Except.ok PyVal.nan
    else Except.ok (PyVal.fin (a / b))) = Except.ok v
  split
  · split
    · exact ⟨_, rfl⟩
    · split
      · exact ⟨_, rfl⟩
      · exact ⟨_, rfl⟩
  · exact ⟨_, rfl⟩

/-- Claim C3 (amended): when the Total units cell is 0, the computed
affordability ratio is 0 if the affordable units are 0 (the NaN of 0/0
is zero-filled), positive infinity if they are positive and negative
infinity if negative; no division error is raised. -/
theorem claim_C3_amended (r : Record) (m1 a1 m2 a2 : ℚ)
    (h1 : r.marketRateRentals = Cell.num m1) (h2 : r.affordableRentals = Cell.num a1)
    (h3 : r.marketRateOwner = Cell.num m2) (h4 : r.affordableOwner = Cell.num a2)
    (h5 : r.totalUnits = Cell.num 0) :
    ∃ x, enrich (fillRecord r) = Except.ok x ∧
      x.affordabilityRatio =
        (if 0 < a1 + a2 then PyVal.inf else if a1 + a2 < 0 then PyVal.ninf else PyVal.fin 0) := by
  have e1 : (fillRecord r).marketRateRentals = Cell.num m1 := by
    simp [fillRecord, h1, fillCell]
  have e2 : (fillRecord r).affordableRentals = Cell.num a1 := by
    simp [fillRecord, h2, fillCell]
  have e3 : (fillRecord r).marketRateOwner = Cell.num m2 := by
    simp [fillRecord, h3, fillCell]
  have e4 : (fillRecord r).affordableOwner = Cell.num a2 := by
    simp [fillRecord, h4, fillCell]
  have e5 : (fillRecord r).totalUnits = Cell.num 0 := by
    simp [fillRecord, h5, fillCell]
  unfold enrich
  rw [e1, e2, e3, e4, e5]
  simp only [pyAdd]
  rcases lt_trichotomy 0 (a1 + a2) with hpos | hzero | hneg
  · have hdiv : pyDivCell (Cell.num (a1 + a2)) (Cell.num 0) = .ok PyVal.inf := by
      simp [pyDivCell, hpos]
    rw [hdiv, if_pos hpos]
    exact ⟨_, rfl, rfl⟩
  · have hdiv : pyDivCell (Cell.num (a1 + a2)) (Cell.num 0) = .ok PyVal.nan := by
      simp [pyDivCell, hzero]
    rw [hdiv, if_neg (by rw [← hzero]; exact lt_irrefl 0), if_neg (by rw [← hzero]; exact lt_irrefl 0)]
    refine ⟨_, rfl, ?_⟩
    show pyRound1 (fillnaVal (pyMul100 PyVal.nan)) = PyVal.fin 0
    simp [pyMul100, fillnaVal, pyRound1, roundTo1_zero]
  · have hdiv : pyDivCell (Cell.num (a1 + a2)) (Cell.num 0) = .ok PyVal.ninf := by
      simp [pyDivCell, hneg, not_lt_of_lt hneg]
    rw [hdiv, if_neg (not_lt_of_lt hneg), if_pos hneg]
    exact ⟨_, rfl, rfl⟩

/-- Witness for the amended C3 at `recC3W` (2 + 3 affordable units,
total 0): the ratio evaluates to positive infinity. -/
theorem claim_C3_witness :
    recC3W.totalUnits = Cell.num 0 ∧
    ∃ x, enrich (fillRecord recC3W) = Except.ok x ∧
      x.affordabilityRatio =
        (if (0 : ℚ) < 2 + 3 then PyVal.inf else if (2 : ℚ) + 3 < 0 then PyVal.ninf
         else PyVal.fin 0) :=
  ⟨rfl, claim_C3_amended recC3W 0 2 0 3 rfl rfl rfl rfl rfl⟩

theorem fill_numOrNa {c : Cell} (h : cellNumOrNa c = true) : fillCell c = Cell.num (val0 c) := by
  cases c with
  | num q => rfl
  | na => rfl
  | str s => exact Bool.noConfusion h

/-- Claim C2 (amended): missing unit-count cells are zero-filled at
load and the derived columns are computed with them as 0, without
raising; this tolerance does not extend to malformed strings, which
are left unconverted (see the counterexample). -/
theorem claim_C2_amended (r : Record)
    (h1 : cellNumOrNa r.marketRateRentals = true) (h2 : cellNumOrNa r.affordableRentals = true)
    (h3 : cellNumOrNa r.marketRateOwner = true) (h4 : cellNumOrNa r.affordableOwner = true)
    (h5 : cellNumOrNa r.totalUnits = true) :
    ∃ x, enrich (fillRecord r) = Except.ok x ∧
      x.rentalUnits = Cell.num (val0 r.marketRateRentals + val0 r.affordableRentals) ∧
      x.ownerUnits = Cell.num (val0 r.marketRateOwner + val0 r.affordableOwner) ∧
      x.affordableUnits = Cell.num (val0 r.affordableRentals + val0 r.affordableOwner) ∧
      x.marketRateUnits = Cell.num (val0 r.marketRateRentals + val0 r.marketRateOwner) := by
  have e1 : (fillRecord r).marketRateRentals = Cell.num (val0 r.marketRateRentals) :=
    fill_numOrNa h1
  have e2 : (fillRecord r).affordableRentals = Cell.num (val0 r.affordableRentals) :=
    fill_numOrNa h2
  have e3 : (fillRecord r).marketRateOwner = Cell.num (val0 r.marketRateOwner) :=
    fill_numOrNa h3
  have e4 : (fillRecord r).affordableOwner = Cell.num (val0 r.affordableOwner) :=
    fill_numOrNa h4
  have e5 : (fillRecord r).totalUnits = Cell.num (val0 r.totalUnits) :=
    fill_numOrNa h5
  obtain ⟨v, hv⟩ := pyDiv_num_ok (val0 r.affordableRentals + val0 r.affordableOwner)
    (val0 r.totalUnits)
  unfold enrich
  rw [e1, e2, e3, e4, e5]
  simp only [pyAdd]
  rw [hv]
  exact ⟨_, rfl, rfl, rfl, rfl, rfl⟩

/-- Witness for the amended C2 at `recW2`, whose Market Rate Rentals
and Market Rate Owner cells are missing: they are treated as 0. -/
theorem claim_C2_witness :
    cellNumOrNa recW2.marketRateRentals = true ∧ recW2.marketRateRentals = Cell.na ∧
    ∃ x, enrich (fillRecord recW2) = Except.ok x ∧
      x.rentalUnits = Cell.num (val0 recW2.marketRateRentals + val0 recW2.affordableRentals) ∧
      x.ownerUnits = Cell.num (val0 recW2.marketRateOwner + val0 recW2.affordableOwner) ∧
      x.affordableUnits = Cell.num (val0 recW2.affordableRentals + val0 recW2.affordableOwner) ∧
      x.marketRateUnits = Cell.num (val0 recW2.marketRateRentals + val0 recW2.marketRateOwner) :=
  ⟨rfl, rfl, claim_C2_amended recW2 rfl rfl rfl rfl rfl⟩

/-- Claim C1 (amended): if every record's occupancy, after the
load-time zero-fill, fails numeric parsing (free text such as TBD),
the aggregation raises a ValueError — `int()` of the NaN minimum of an
empty series — instead of producing an empty yearly table, and no
enriched output is returned. -/
theorem claim_C1_amended (rows : List Record) (e : List Enriched)
    (henr : mapE enrich (rows.map fillRecord) = .ok e)
    (hocc : ∀ r ∈ rows, toNumericCoerce (fillCell r.occupancy) = none) :
    aggregate rows = .error valueErrorMsg := by
  have hall : ∀ x ∈ e, x.moveInYear = none := by
    intro x hx
    obtain ⟨a, ha, hfa⟩ := mapE_mem_ok henr x hx
    obtain ⟨r, hr, rfl⟩ := List.mem_map.mp ha
    rw [(enrich_ok_fields hfa).2.1]
    exact hocc r hr
  have hfilter : e.filter (fun x => x.moveInYear.isSome) = [] := by
    rw [List.filter_eq_nil_iff]
    intro x hx
    simp [hall x hx]
  unfold aggregate
  rw [henr]
  show (match yearlyFromValid (e.filter fun x => x.moveInYear.isSome) with
    | Except.error m => Except.error m
    | Except.ok t => Except.ok (e, t)) = Except.error valueErrorMsg
  rw [hfilter]
  rfl

/-- Witness for the amended C1 at the single TBD record. -/
theorem claim_C1_witness :
    mapE enrich (List.map fillRecord [recTBD]) = .ok [enrTBD] ∧
    (∀ r ∈ [recTBD], toNumericCoerce (fillCell r.occupancy) = none) ∧
    aggregate [recTBD] = .error valueErrorMsg :=
  ⟨by with_unfolding_all rfl,
   by
     intro r hr
     rw [List.mem_singleton.mp hr]
     with_unfolding_all rfl,
   claim_C1_amended [recTBD] [enrTBD] (by with_unfolding_all rfl)
     (by
       intro r hr
       rw [List.mem_singleton.mp hr]
       with_unfolding_all rfl)⟩

/-- Claim C6 (amended): a record whose occupancy after the load-time
zero-fill does not parse to a number (free text; an absent cell is
zero-filled first and so does parse) is excluded from the year
grouping and the yearly table while remaining in the enriched project
list: appending it appends exactly its enrichment to the enriched list
and leaves the yearly table, or the raised error, unchanged. -/
theorem claim_C6_amended (rows : List Record) (r : Record) (er : Enriched)
    (hocc : toNumericCoerce (fillCell r.occupancy) = none)
    (henr : enrich (fillRecord r) = .ok er) :
    aggregate (rows ++ [r]) = (aggregate rows).map fun p => (p.1 ++ [er], p.2) := by
  have h2 : mapE enrich [fillRecord r] = .ok [er] := by
    simp [mapE, henr]
  have hmap : (rows ++ [r]).map fillRecord = rows.map fillRecord ++ [fillRecord r] := by
    simp
  have her : er.moveInYear = none := by
    rw [(enrich_ok_fields henr).2.1]
    exact hocc
  unfold aggregate
  rw [hmap, mapE_append h2]
  cases h3 : mapE enrich (rows.map fillRecord) with
  | error m => simp [Except.map]
  | ok e =>
      have hfil : (e ++ [er]).filter (fun x => x.moveInYear.isSome)
          = e.filter (fun x => x.moveInYear.isSome) := by
        rw [List.filter_append]
        simp [her]
      simp only [Except.map]
      rw [hfil]
      cases h4 : yearlyFromValid (e.filter fun x => x.moveInYear.isSome) with
      | error m => rfl
      | ok t => rfl

/-- Witness for the amended C6: appending the TBD record to `rows9`
appends its enrichment and leaves the yearly table unchanged. -/
theorem claim_C6_witness :
    toNumericCoerce (fillCell recTBD.occupancy) = none ∧
    enrich (fillRecord recTBD) = .ok enrTBD ∧
    aggregate (rows9 ++ [recTBD]) = (aggregate rows9).map fun p => (p.1 ++ [enrTBD], p.2) :=
  ⟨by with_unfolding_all rfl, by with_unfolding_all rfl,
   claim_C6_amended rows9 recTBD enrTBD (by with_unfolding_all rfl)
     (by with_unfolding_all rfl)⟩

theorem yearRangeAux_chain : ∀ (n : ℕ) (lo : ℤ),
    List.Chain' (fun a b => b = a + 1) (yearRangeAux lo n) := by
  intro n
  induction n with
  | zero => intro lo; exact List.chain'_nil
  | succ m ih =>
      intro lo
      cases m with
      | zero => exact List.chain'_singleton lo
      | succ m2 =>
          show List.Chain' _ (lo :: (lo + 1) :: yearRangeAux (lo + 1 + 1) m2)
          exact List.chain'_cons.mpr ⟨rfl, ih (lo + 1)⟩

theorem yearRange_eq_nil {lo hi : ℤ} (h : hi < lo) : yearRange lo hi = [] := by
  unfold yearRange
  rw [Int.toNat_eq_zero.mpr (by omega)]
  rfl

theorem mergedOf_ok {v : List Enriched} :
    ∀ {ys : List ℤ} {ms : List (ℤ × Sums)}, mergedOf v ys = .ok ms →
      ms.map Prod.fst = ys ∧ ∀ p ∈ ms, sumsFor v p.1 = .ok p.2 := by
  intro ys
  induction ys with
  | nil =>
      intro ms h
      injection h with h
      subst h
      exact ⟨rfl, fun p hp => absurd hp (List.not_mem_nil p)⟩
  | cons a as ih =>
      intro ms h
      unfold mergedOf at h
      split at h
      · exact Except.noConfusion h
      next s hs =>
        split at h
        · exact Except.noConfusion h
        next rest hrest =>
          injection h with h
          subst h
          refine ⟨by simp [(ih hrest).1], ?_⟩
          intro p hp
          rcases List.mem_cons.mp hp with hp | hp
          · rw [hp]
            exact hs
          · exact (ih hrest).2 p hp

theorem cumRows_ok :
    ∀ {ms : List (ℤ × Sums)} {acc : Option Sums} {t : List YearRow},
      cumRows acc ms = .ok t →
      t.map YearRow.year = ms.map Prod.fst ∧
      ∀ row ∈ t, ∃ p ∈ ms, p.1 = row.year ∧ rowSums row = p.2 := by
  intro ms
  induction ms with
  | nil =>
      intro acc t h
      have h0 : (Except.ok [] : Except String (List YearRow)) = .ok t := by
        cases acc with
        | none => exact h
        | some c => exact h
      injection h0 with h0
      subst h0
      exact ⟨rfl, fun row hrow => absurd hrow (List.not_mem_nil row)⟩
  | cons p rest ih =>
      intro acc t h
      obtain ⟨y, s⟩ := p
      cases acc with
      | none =>
          unfold cumRows at h
          split at h
          · exact Except.noConfusion h
          next t0 ht0 =>
            injection h with h
            subst h
            obtain ⟨ih1, ih2⟩ := ih ht0
            refine ⟨by simp [ih1, mkRow], ?_⟩
            intro row hrow
            rcases List.mem_cons.mp hrow with hrow | hrow
            · subst hrow
              exact ⟨(y, s), List.mem_cons_self _ _, rfl, rfl⟩
            · obtain ⟨p2, hp2, hp3, hp4⟩ := ih2 row hrow
              exact ⟨p2, List.mem_cons_of_mem _ hp2, hp3, hp4⟩
      | some c =>
          unfold cumRows at h
          split at h
          · exact Except.noConfusion h
          next c2 hc2 =>
            split at h
            · exact Except.noConfusion h
            next t0 ht0 =>
              injection h with h
              subst h
              obtain ⟨ih1, ih2⟩ := ih ht0
              refine ⟨by simp [ih1, mkRow], ?_⟩
              intro row hrow
              rcases List.mem_cons.mp hrow with hrow | hrow
              · subst hrow
                exact ⟨(y, s), List.mem_cons_self _ _, rfl, rfl⟩
              · obtain ⟨p2, hp2, hp3, hp4⟩ := ih2 row hrow
                exact ⟨p2, List.mem_cons_of_mem _ hp2, hp3, hp4⟩

theorem sumsFor_empty {v : List Enriched} {y : ℤ} (h : groupAt v y = []) :
    sumsFor v y = .ok sumsZero := by
  unfold sumsFor
  rw [if_pos h]

theorem groupAt_eq_nil {v : List Enriched} {y : ℤ}
    (h : ∀ x ∈ v, ¬ x.moveInYear = some ((y : ℤ) : ℚ)) : groupAt v y = [] := by
  unfold groupAt
  rw [List.filter_eq_nil_iff]
  intro x hx
  simp [h x hx]

theorem aggregate_parts {rows : List Record} {e : List Enriched} {y : List YearRow}
    (h : aggregate rows = .ok (e, y)) :
    mapE enrich (rows.map fillRecord) = .ok e ∧
    yearlyFromValid (e.filter fun x => x.moveInYear.isSome) = .ok y := by
  unfold aggregate at h
  split at h
  · exact Except.noConfusion h
  next e0 he0 =>
    split at h
    · exact Except.noConfusion h
    next t0 ht0 =>
      injection h with h
      injection h with h1 h2
      subst h1
      subst h2
      exact ⟨he0, ht0⟩

theorem yearly_shape {v : List Enriched} {t : List YearRow} {k : ℚ}
    (hmin : minList (parsedYears v) = some k)
    (h : yearlyFromValid v = .ok t) :
    t.map YearRow.year = yearRange (intTrunc k) TARGET_YEAR ∧
    ∀ row ∈ t, groupAt v row.year = [] → rowSums row = sumsZero := by
  unfold yearlyFromValid at h
  simp only [hmin] at h
  split at h
  · exact Except.noConfusion h
  next ms hms =>
    obtain ⟨hm1, hm2⟩ := mergedOf_ok hms
    obtain ⟨hc1, hc2⟩ := cumRows_ok h
    constructor
    · rw [hc1, hm1]
    · intro row hrow hgrp
      obtain ⟨p, hp, hpy, hps⟩ := hc2 row hrow
      have hsf := hm2 p hp
      rw [hpy, sumsFor_empty hgrp] at hsf
      injection hsf with hsf
      rw [hps, ← hsf]

/-- Claim C4 (amended): when the aggregation succeeds and at least one
record has a parsed move-in year with minimum k, the yearly table has
exactly one row per integer year from `int(k)` — the Python truncation
of the minimum, which lies below k when k is fractional — through the
target year 2030, in ascending order with no gaps, and a year in that
range with no project gets per-category sums of 0, not an absent
row. -/
theorem claim_C4_amended (rows : List Record) (e : List Enriched) (y : List YearRow) (k : ℚ)
    (hagg : aggregate rows = .ok (e, y))
    (hmin : minList (parsedYears (e.filter fun x => x.moveInYear.isSome)) = some k) :
    y.map YearRow.year = yearRange (intTrunc k) TARGET_YEAR ∧
    List.Chain' (fun a b => b = a + 1) (y.map YearRow.year) ∧
    ∀ row ∈ y, (∀ x ∈ e, ¬ x.moveInYear = some ((row.year : ℤ) : ℚ)) →
      rowSums row = sumsZero := by
  obtain ⟨-, hyear⟩ := aggregate_parts hagg
  obtain ⟨hshape, hzero⟩ := yearly_shape hmin hyear
  refine ⟨hshape, ?_, ?_⟩
  · rw [hshape]
    exact yearRangeAux_chain _ _
  · intro row hrow hno
    refine hzero row hrow (groupAt_eq_nil ?_)
    intro x hx
    exact hno x (List.mem_of_mem_filter hx)

/-- Witness for the amended C4 at `rows9` (one record, year 2030). -/
theorem claim_C4_witness :
    aggregate rows9 = .ok (e9, y9) ∧
    minList (parsedYears (e9.filter fun x => x.moveInYear.isSome)) = some 2030 ∧
    (y9.map YearRow.year = yearRange (intTrunc 2030) TARGET_YEAR ∧
     List.Chain' (fun a b => b = a + 1) (y9.map YearRow.year) ∧
     ∀ row ∈ y9, (∀ x ∈ e9, ¬ x.moveInYear = some ((row.year : ℤ) : ℚ)) →
       rowSums row = sumsZero) :=
  ⟨by with_unfolding_all rfl, by with_unfolding_all rfl,
   claim_C4_amended rows9 e9 y9 2030 (by with_unfolding_all rfl) (by with_unfolding_all rfl)⟩

/-- Claim C5 (amended): if the truncated minimum parsed year exceeds
the target year 2030, `range(int(min), 2031)` is empty, so the
materialized year range and the yearly table are empty — not a single
collapsed row. -/
theorem claim_C5_amended (rows : List Record) (e : List Enriched) (y : List YearRow) (k : ℚ)
    (hagg : aggregate rows = .ok (e, y))
    (hmin : minList (parsedYears (e.filter fun x => x.moveInYear.isSome)) = some k)
    (hgt : TARGET_YEAR < intTrunc k) : y = [] := by
  obtain ⟨-, hyear⟩ := aggregate_parts hagg
  obtain ⟨hshape, -⟩ := yearly_shape hmin hyear
  rw [yearRange_eq_nil hgt] at hshape
  exact List.map_eq_nil_iff.mp hshape

/-- Witness for the amended C5 at the single year-2035 record. -/
theorem claim_C5_witness :
    aggregate [rec2035] = .ok ([enr2035], []) ∧
    minList (parsedYears ([enr2035].filter fun x => x.moveInYear.isSome)) = some 2035 ∧
    TARGET_YEAR < intTrunc 2035 ∧ ([] : List YearRow) = [] :=
  ⟨by with_unfolding_all rfl, by with_unfolding_all rfl,
   of_decide_eq_true (by with_unfolding_all rfl),
   claim_C5_amended [rec2035] [enr2035] [] 2035 (by with_unfolding_all rfl)
     (by with_unfolding_all rfl) (of_decide_eq_true (by with_unfolding_all rfl))⟩

theorem pySumAux_nn : ∀ {cs : List Cell} {acc c0 : Cell}, cellNN acc →
    (∀ c ∈ cs, cellNN c) → pySumAux acc cs = .ok c0 → cellNN c0 := by
  intro cs
  induction cs with
  | nil =>
      intro acc c0 hacc _ h
      injection h with h
      subst h
      exact hacc
  | cons c cs ih =>
      intro acc c0 hacc hall h
      unfold pySumAux at h
      split at h
      · exact Except.noConfusion h
      next a ha =>
        obtain ⟨qa, hqa, hqa0⟩ := hacc
        obtain ⟨qc, hqc, hqc0⟩ := hall c (List.mem_cons_self _ _)
        rw [hqa, hqc, pyAdd_num] at ha
        injection ha with ha
        exact ih ⟨qa + qc, ha.symm, add_nonneg hqa0 hqc0⟩
          (fun d hd => hall d (List.mem_cons_of_mem _ hd)) h

theorem pySum_nn {cs : List Cell} {c0 : Cell} (hall : ∀ c ∈ cs, cellNN c)
    (h : pySum cs = .ok c0) : cellNN c0 := by
  cases cs with
  | nil =>
      injection h with h
      subst h
      exact ⟨0, rfl, le_refl 0⟩
  | cons c cs =>
      exact pySumAux_nn (hall c (List.mem_cons_self _ _))
        (fun d hd => hall d (List.mem_cons_of_mem _ hd)) h

theorem sumsFor_nn {v : List Enriched} (hv : ∀ x ∈ v, enrichedNN x) (y : ℤ) {s : Sums}
    (h : sumsFor v y = .ok s) : sumsNN s := by
  have hzero : cellNN (Cell.num 0) := ⟨0, rfl, le_refl 0⟩
  unfold sumsFor at h
  split at h
  · injection h with h
    subst h
    exact ⟨hzero, hzero, hzero, hzero, hzero⟩
  · have hmem : ∀ x ∈ groupAt v y, enrichedNN x :=
      fun x hx => hv x (List.mem_of_mem_filter hx)
    have hcell : ∀ (f : Enriched → Cell), (∀ x ∈ groupAt v y, cellNN (f x)) →
        ∀ c ∈ (groupAt v y).map f, cellNN c := by
      intro f hf c hc
      obtain ⟨x, hx, rfl⟩ := List.mem_map.mp hc
      exact hf x hx
    split at h
    · exact Except.noConfusion h
    next r hr =>
    split at h
    · exact Except.noConfusion h
    next o ho =>
    split at h
    · exact Except.noConfusion h
    next t ht =>
    split at h
    · exact Except.noConfusion h
    next a ha =>
    split at h
    · exact Except.noConfusion h
    next m hm =>
      injection h with h
      subst h
      exact ⟨pySum_nn (hcell _ fun x hx => (hmem x hx).1) hr,
             pySum_nn (hcell _ fun x hx => (hmem x hx).2.1) ho,
             pySum_nn (hcell _ fun x hx => (hmem x hx).2.2.1) ht,
             pySum_nn (hcell _ fun x hx => (hmem x hx).2.2.2.1) ha,
             pySum_nn (hcell _ fun x hx => (hmem x hx).2.2.2.2) hm⟩

theorem addSums_mono {c s c2 : Sums} (hc : sumsNN c) (hs : sumsNN s)
    (h : addSums c s = .ok c2) : sumsNN c2 ∧ sumsLe c c2 := by
  obtain ⟨⟨q1, e1, n1⟩, ⟨q2, e2, n2⟩, ⟨q3, e3, n3⟩, ⟨q4, e4, n4⟩, ⟨q5, e5, n5⟩⟩ := hc
  obtain ⟨⟨p1, f1, m1⟩, ⟨p2, f2, m2⟩, ⟨p3, f3, m3⟩, ⟨p4, f4, m4⟩, ⟨p5, f5, m5⟩⟩ := hs
  unfold addSums at h
  rw [e1, f1, e2, f2, e3, f3, e4, f4, e5, f5] at h
  simp only [pyAdd_num] at h
  injection h with h
  subst h
  constructor
  · exact ⟨⟨q1 + p1, rfl, add_nonneg n1 m1⟩, ⟨q2 + p2, rfl, add_nonneg n2 m2⟩,
      ⟨q3 + p3, rfl, add_nonneg n3 m3⟩, ⟨q4 + p4, rfl, add_nonneg n4 m4⟩,
      ⟨q5 + p5, rfl, add_nonneg n5 m5⟩⟩
  · exact ⟨⟨q1, q1 + p1, e1, rfl, le_add_of_nonneg_right m1⟩,
      ⟨q2, q2 + p2, e2, rfl, le_add_of_nonneg_right m2⟩,
      ⟨q3, q3 + p3, e3, rfl, le_add_of_nonneg_right m3⟩,
      ⟨q4, q4 + p4, e4, rfl, le_add_of_nonneg_right m4⟩,
      ⟨q5, q5 + p5, e5, rfl, le_add_of_nonneg_right m5⟩⟩

theorem cumRows_chain :
    ∀ {ms : List (ℤ × Sums)} {c : Sums} {t : List YearRow}, sumsNN c →
      (∀ p ∈ ms, sumsNN p.2) → cumRows (some c) ms = .ok t →
      List.Chain' cumLe t ∧ (∀ row ∈ t.head?, sumsLe c (rowCums row)) := by
  intro ms
  induction ms with
  | nil =>
      intro c t _ _ h
      injection h with h
      subst h
      exact ⟨List.chain'_nil, fun row hrow => absurd hrow (by simp)⟩
  | cons p rest ih =>
      intro c t hc hall h
      obtain ⟨y, s⟩ := p
      unfold cumRows at h
      split at h
      · exact Except.noConfusion h
      next c2 hc2 =>
        split at h
        · exact Except.noConfusion h
        next t0 ht0 =>
          injection h with h
          subst h
          obtain ⟨hc2nn, hle⟩ := addSums_mono hc (hall (y, s) (List.mem_cons_self _ _)) hc2
          obtain ⟨chain0, head0⟩ := ih hc2nn (fun q hq => hall q (List.mem_cons_of_mem _ hq)) ht0
          refine ⟨List.chain'_cons'.mpr ⟨fun row hrow => head0 row hrow, chain0⟩, ?_⟩
          intro row hrow
          have h9 : some (mkRow y s c2) = some row := hrow
          injection h9 with h9
          rw [← h9]
          exact hle

theorem enrich_nn {r : Record} {x : Enriched} (hr : recordNonneg r)
    (h : enrich (fillRecord r) = .ok x) : enrichedNN x := by
  obtain ⟨⟨q1, e1, n1⟩, ⟨q2, e2, n2⟩, ⟨q3, e3, n3⟩, ⟨q4, e4, n4⟩, ⟨q5, e5, n5⟩⟩ := hr
  obtain ⟨hbase, _, ha1, ha2, ha3, ha4⟩ := enrich_ok_fields h
  have f1 : (fillRecord r).marketRateRentals = Cell.num q1 := by simp [fillRecord, e1, fillCell]
  have f2 : (fillRecord r).affordableRentals = Cell.num q2 := by simp [fillRecord, e2, fillCell]
  have f3 : (fillRecord r).marketRateOwner = Cell.num q3 := by simp [fillRecord, e3, fillCell]
  have f4 : (fillRecord r).affordableOwner = Cell.num q4 := by simp [fillRecord, e4, fillCell]
  have f5 : (fillRecord r).totalUnits = Cell.num q5 := by simp [fillRecord, e5, fillCell]
  rw [f1, f2, pyAdd_num] at ha1
  rw [f3, f4, pyAdd_num] at ha2
  rw [f2, f4, pyAdd_num] at ha3
  rw [f1, f3, pyAdd_num] at ha4
  injection ha1 with ha1
  injection ha2 with ha2
  injection ha3 with ha3
  injection ha4 with ha4
  refine ⟨⟨q1 + q2, ha1.symm, add_nonneg n1 n2⟩, ⟨q3 + q4, ha2.symm, add_nonneg n3 n4⟩,
    ?_, ⟨q2 + q4, ha3.symm, add_nonneg n2 n4⟩, ⟨q1 + q3, ha4.symm, add_nonneg n1 n3⟩⟩
  rw [hbase]
  exact ⟨q5, f5, n5⟩

/-- Claim C9: in every yearly table the aggregation produces from
records whose unit-count cells are nonnegative numbers, each of the
five cumulative columns is nondecreasing in (ascending) year order. -/
theorem claim_C9_cumulative_monotone (rows : List Record) (e : List Enriched) (y : List YearRow)
    (hnn : ∀ r ∈ rows, recordNonneg r)
    (hagg : aggregate rows = .ok (e, y)) : List.Chain' cumLe y := by
  obtain ⟨henr, hyear⟩ := aggregate_parts hagg
  have he : ∀ x ∈ e, enrichedNN x := by
    intro x hx
    obtain ⟨a, ha, hfa⟩ := mapE_mem_ok henr x hx
    obtain ⟨r, hr, rfl⟩ := List.mem_map.mp ha
    exact enrich_nn (hnn r hr) hfa
  have hv : ∀ x ∈ e.filter (fun x => x.moveInYear.isSome), enrichedNN x :=
    fun x hx => he x (List.mem_of_mem_filter hx)
  unfold yearlyFromValid at hyear
  split at hyear
  · exact Except.noConfusion hyear
  next kmin hkmin =>
    split at hyear
    · exact Except.noConfusion hyear
    next ms hms =>
      have hmsnn : ∀ p ∈ ms, sumsNN p.2 := by
        intro p hp
        exact sumsFor_nn hv p.1 ((mergedOf_ok hms).2 p hp)
      cases ms with
      | nil =>
          injection hyear with h
          subst h
          exact List.chain'_nil
      | cons p rest =>
          obtain ⟨y0, s⟩ := p
          unfold cumRows at hyear
          split at hyear
          · exact Except.noConfusion hyear
          next t0 ht0 =>
            injection hyear with h
            subst h
            have hs : sumsNN s := hmsnn (y0, s) (List.mem_cons_self _ _)
            obtain ⟨chain0, head0⟩ := cumRows_chain hs
              (fun q hq => hmsnn q (List.mem_cons_of_mem _ hq)) ht0
            exact List.chain'_cons'.mpr ⟨fun row hrow => head0 row hrow, chain0⟩

theorem rows9_nonneg : ∀ r ∈ rows9, recordNonneg r := by
  intro r hr
  rw [List.mem_singleton.mp hr]
  exact ⟨⟨1, rfl, by norm_num⟩, ⟨2, rfl, by norm_num⟩, ⟨3, rfl, by norm_num⟩,
    ⟨4, rfl, by norm_num⟩, ⟨10, rfl, by norm_num⟩⟩

/-- Witness for C9 at `rows9`. -/
theorem claim_C9_witness :
    (∀ r ∈ rows9, recordNonneg r) ∧ aggregate rows9 = .ok (e9, y9) ∧ List.Chain' cumLe y9 :=
  ⟨rows9_nonneg, by with_unfolding_all rfl,
   claim_C9_cumulative_monotone rows9 e9 y9 rows9_nonneg (by with_unfolding_all rfl)⟩

theorem ratFloor_eq (q : ℚ) : Rat.floor q = ⌊q⌋ := rfl

theorem roundHalfEven_le (q : ℚ) : (roundHalfEven q : ℚ) ≤ q + 1 / 2 := by
  have hle : (Rat.floor q : ℚ) ≤ q := by rw [ratFloor_eq]; exact Int.floor_le q
  have hlt : q < (Rat.floor q : ℚ) + 1 := by rw [ratFloor_eq]; exact Int.lt_floor_add_one q
  unfold roundHalfEven
  split
  next h1 => linarith
  next h1 =>
    split
    next h2 => push_cast; linarith
    next h2 =>
      have hr : q - (Rat.floor q : ℚ) = 1 / 2 := le_antisymm (not_lt.mp h2) (not_lt.mp h1)
      split
      next h3 => linarith
      next h3 => push_cast; linarith

theorem le_roundHalfEven (q : ℚ) : q - 1 / 2 ≤ (roundHalfEven q : ℚ) := by
  have hle : (Rat.floor q : ℚ) ≤ q := by rw [ratFloor_eq]; exact Int.floor_le q
  have hlt : q < (Rat.floor q : ℚ) + 1 := by rw [ratFloor_eq]; exact Int.lt_floor_add_one q
  unfold roundHalfEven
  split
  next h1 => linarith
  next h1 =>
    split
    next h2 => push_cast; linarith
    next h2 =>
      have hr : q - (Rat.floor q : ℚ) = 1 / 2 := le_antisymm (not_lt.mp h2) (not_lt.mp h1)
      split
      next h3 => linarith
      next h3 => push_cast; linarith

theorem roundTo1_nonneg {q : ℚ} (h : 0 ≤ q) : 0 ≤ roundTo1 q := by
  unfold roundTo1
  have h1 := le_roundHalfEven (q * 10)
  have h2 : (0 : ℚ) ≤ (roundHalfEven (q * 10) : ℚ) := by
    rcases le_or_lt 0 (roundHalfEven (q * 10)) with h3 | h3
    · exact_mod_cast h3
    · exfalso
      have h4 : roundHalfEven (q * 10) ≤ -1 := by omega
      have h5 : (roundHalfEven (q * 10) : ℚ) ≤ -1 := by exact_mod_cast h4
      linarith
  exact div_nonneg h2 (by norm_num)

theorem roundTo1_le_100 {q : ℚ} (h : q ≤ 100) : roundTo1 q ≤ 100 := by
  unfold roundTo1
  have h1 := roundHalfEven_le (q * 10)
  have h2 : roundHalfEven (q * 10) ≤ 1000 := by
    by_contra h3
    push_neg at h3
    have h4 : (1001 : ℤ) ≤ roundHalfEven (q * 10) := by omega
    have h5 : (1001 : ℚ) ≤ (roundHalfEven (q * 10) : ℚ) := by exact_mod_cast h4
    linarith
  have h6 : (roundHalfEven (q * 10) : ℚ) ≤ 1000 := by exact_mod_cast h2
  linarith

/-- Claim C8 (amended): for every record with numeric unit cells,
nonnegative affordable counts and total units t > 0, the computed
affordability ratio equals `round((a1 + a2) / t * 100, 1)` and is
nonnegative; if moreover the affordable units a1 + a2 do not exceed t,
it is at most 100.  (The unconditional [0, 100] bound of the claim
fails when the hand-entered total is smaller than the affordable
units — see the counterexample.) -/
theorem claim_C8_amended (r : Record) (m1 a1 m2 a2 t : ℚ)
    (h1 : r.marketRateRentals = Cell.num m1) (h2 : r.affordableRentals = Cell.num a1)
    (h3 : r.marketRateOwner = Cell.num m2) (h4 : r.affordableOwner = Cell.num a2)
    (h5 : r.totalUnits = Cell.num t) (ht : 0 < t)
    (ha1 : 0 ≤ a1) (ha2 : 0 ≤ a2) :
    ∃ x, enrich (fillRecord r) = Except.ok x ∧
      x.affordabilityRatio = PyVal.fin (roundTo1 ((a1 + a2) / t * 100)) ∧
      0 ≤ roundTo1 ((a1 + a2) / t * 100) ∧
      (a1 + a2 ≤ t → roundTo1 ((a1 + a2) / t * 100) ≤ 100) := by
  have e1 : (fillRecord r).marketRateRentals = Cell.num m1 := by
    simp [fillRecord, h1, fillCell]
  have e2 : (fillRecord r).affordableRentals = Cell.num a1 := by
    simp [fillRecord, h2, fillCell]
  have e3 : (fillRecord r).marketRateOwner = Cell.num m2 := by
    simp [fillRecord, h3, fillCell]
  have e4 : (fillRecord r).affordableOwner = Cell.num a2 := by
    simp [fillRecord, h4, fillCell]
  have e5 : (fillRecord r).totalUnits = Cell.num t := by
    simp [fillRecord, h5, fillCell]
  have hdiv : pyDivCell (Cell.num (a1 + a2)) (Cell.num t) = .ok (.fin ((a1 + a2) / t)) := by
    show (if t = 0 then
        if 0 < a1 + a2 then Except.ok PyVal.inf
        else if a1 + a2 < 0 then Except.ok PyVal.ninf else Except.ok PyVal.nan
      else Except.ok (PyVal.fin ((a1 + a2) / t))) = Except.ok (PyVal.fin ((a1 + a2) / t))
    rw [if_neg (ne_of_gt ht)]
  unfold enrich
  rw [e1, e2, e3, e4, e5]
  simp only [pyAdd]
  rw [hdiv]
  refine ⟨_, rfl, rfl, ?_, ?_⟩
  · exact roundTo1_nonneg
      (mul_nonneg (div_nonneg (add_nonneg ha1 ha2) ht.le) (by norm_num))
  · intro hle
    apply roundTo1_le_100
    have h7 : (a1 + a2) / t ≤ 1 := (div_le_one ht).mpr hle
    linarith

/-- Witness for the amended C8 at the spec scenario record `recW8`
(10 market-rate rentals, 5 affordable rentals, 15 total units). -/
theorem claim_C8_witness :
    recW8.totalUnits = Cell.num 15 ∧ (0 : ℚ) < 15 ∧
    ∃ x, enrich (fillRecord recW8) = Except.ok x ∧
      x.affordabilityRatio = PyVal.fin (roundTo1 ((5 + 0) / 15 * 100)) ∧
      0 ≤ roundTo1 ((5 + 0) / 15 * 100) ∧
      ((5 : ℚ) + 0 ≤ 15 → roundTo1 ((5 + 0) / 15 * 100) ≤ 100) :=
  ⟨rfl, by norm_num,
   claim_C8_amended recW8 10 5 0 0 15 rfl rfl rfl rfl rfl (by norm_num) (by norm_num)
     (by norm_num)⟩
